import Mathlib

/-!
Verification of the wesplot fake-data emitter scripts
(`scripts/fake_data.py` and `scripts/high_freq_data.py`).

The scripts are straight-line loops; we embed one loop iteration ("tick")
as a pure function of the sequence of clock readings (`time.time()` calls)
and random draws (`random.random()` calls) it consumes, in evaluation
order.  Output formatting is embedded at the level of character lists, and
the ordering of the write / flush / sleep effects as an event list.
-/

/-- Boolean test that the first list occurs at the very start of the second
(the matcher used by our model of splitting a line on a separator). -/
def leadsWith : List Char → List Char → Bool
  | [], _ => true
  | _ :: _, [] => false
  | a :: as, b :: bs => a == b && leadsWith as bs

/-- Prepend a character to the first field of a field list (helper for
`splitOnL`). -/
def consHead (c : Char) : List (List Char) → List (List Char)
  | [] => [[c]]
  | f :: fs => (c :: f) :: fs

/-- Split a character list on (non-empty, leftmost, non-overlapping)
occurrences of a separator, with the usual semantics of string splitting:
splitting the empty list yields one empty field. -/
def splitOnL (sep : List Char) (s : List Char) : List (List Char) :=
  match s with
  | [] => [[]]
  | c :: rest =>
    if hcond : sep ≠ [] ∧ leadsWith sep (c :: rest) = true then
      [] :: splitOnL sep (List.drop sep.length (c :: rest))
    else
      consHead c (splitOnL sep rest)
termination_by s.length
decreasing_by
· simp only [List.length_drop, List.length_cons]
  have hpos : 0 < sep.length := List.length_pos.mpr hcond.1
  omega
· simp only [List.length_cons]
  omega

/-- Join a list of fields with a separator between consecutive fields
(the model of Python's `separator.join(data)`). -/
def joinSep (sep : List Char) : List (List Char) → List Char
  | [] => []
  | [p] => p
  | p :: q :: ps => p ++ sep ++ joinSep sep (q :: ps)

theorem leadsWith_append_self (sep t : List Char) : leadsWith sep (sep ++ t) = true := by
  induction sep with
  | nil => rfl
  | cons a as ih => simp [leadsWith, ih]

theorem splitOnL_nil (sep : List Char) : splitOnL sep [] = [[]] := by
  rw [splitOnL]

theorem splitOnL_cons_pos (sep : List Char) (c : Char) (rest : List Char)
    (h1 : sep ≠ []) (h2 : leadsWith sep (c :: rest) = true) :
    splitOnL sep (c :: rest) = [] :: splitOnL sep (List.drop sep.length (c :: rest)) := by
  rw [splitOnL]
  rw [dif_pos ⟨h1, h2⟩]

theorem splitOnL_cons_neg (sep : List Char) (c : Char) (rest : List Char)
    (h : ¬ (sep ≠ [] ∧ leadsWith sep (c :: rest) = true)) :
    splitOnL sep (c :: rest) = consHead c (splitOnL sep rest) := by
  rw [splitOnL]
  rw [dif_neg h]

/-- Splitting a list that avoids the separator's head character returns the
list as a single field. -/
theorem splitOnL_of_head_notMem (d : Char) (sep' : List Char) (s : List Char)
    (hd : d ∉ s) : splitOnL (d :: sep') s = [s] := by
  induction s with
  | nil => exact splitOnL_nil _
  | cons c rest ih =>
    have hdc : d ≠ c := fun h => hd (h ▸ List.mem_cons_self c rest)
    have hlw : leadsWith (d :: sep') (c :: rest) = false := by
      simp [leadsWith, hdc]
    rw [splitOnL_cons_neg _ _ _ (by simp [hlw])]
    rw [ih (fun h => hd (List.mem_cons_of_mem c h))]
    rfl

/-- Splitting strips a leading separator occurrence and starts a fresh empty
field. -/
theorem splitOnL_sep_append (sep t : List Char) (hsep : sep ≠ []) :
    splitOnL sep (sep ++ t) = [] :: splitOnL sep t := by
  obtain ⟨d, sep', rfl⟩ : ∃ d sep', sep = d :: sep' := by
    cases sep with
    | nil => exact absurd rfl hsep
    | cons d sep' => exact ⟨d, sep', rfl⟩
  have hcons : (d :: sep') ++ t = d :: (sep' ++ t) := rfl
  rw [hcons, splitOnL_cons_pos _ _ _ hsep (by rw [← hcons]; exact leadsWith_append_self _ _)]
  congr 1
  rw [← hcons]
  have : List.drop (d :: sep').length ((d :: sep') ++ t) = t := List.drop_left _ _
  rw [this]

/-- Splitting a field followed by a separator followed by a tail peels off the
field, provided the field avoids the separator's head character. -/
theorem splitOnL_field_append (d : Char) (sep' : List Char) (p t : List Char)
    (hp : d ∉ p) : splitOnL (d :: sep') (p ++ (d :: sep') ++ t) = p :: splitOnL (d :: sep') t := by
  induction p with
  | nil =>
    simpa using splitOnL_sep_append (d :: sep') t (by simp)
  | cons c p' ih =>
    have hdc : d ≠ c := fun h => hp (h ▸ List.mem_cons_self c p')
    have hcons : (c :: p') ++ (d :: sep') ++ t = c :: (p' ++ (d :: sep') ++ t) := by simp
    rw [hcons, splitOnL_cons_neg _ _ _ (by simp [leadsWith, hdc])]
    rw [show p' ++ (d :: sep') ++ t = p' ++ ((d :: sep') ++ t) by simp] at ih ⊢
    rw [ih (fun h => hp (List.mem_cons_of_mem c h))]
    rfl

/-- Round trip: splitting a separator-joined list of fields recovers the
fields, when there is at least one field and every field avoids the
separator's head character. -/
theorem splitOnL_joinSep (d : Char) (sep' : List Char) (parts : List (List Char))
    (hne : parts ≠ []) (hfree : ∀ p ∈ parts, d ∉ p) :
    splitOnL (d :: sep') (joinSep (d :: sep') parts) = parts := by
  induction parts with
  | nil => exact absurd rfl hne
  | cons p ps ih =>
    cases ps with
    | nil =>
      rw [show joinSep (d :: sep') [p] = p from rfl]
      exact splitOnL_of_head_notMem d sep' p (hfree p (List.mem_cons_self _ _))
    | cons q ps' =>
      rw [show joinSep (d :: sep') (p :: q :: ps') = p ++ (d :: sep') ++ joinSep (d :: sep') (q :: ps') from rfl]
      rw [splitOnL_field_append d sep' p _ (hfree p (List.mem_cons_self _ _))]
      rw [ih (by simp) (fun r hr => hfree r (List.mem_cons_of_mem p hr))]

/-- Observable effects of one loop iteration, in program order: writing a
line, flushing stdout, sleeping for a duration (in seconds). -/
inductive Event where
  | write : List Char → Event
  | flush : Event
  | sleep : ℚ → Event
  deriving DecidableEq

/-- Test whether an event is a flush. -/
def isFlush : Event → Bool
  | .flush => true
  | _ => false

/-- True when some flush event occurs strictly after some sleep event in the
list. -/
def flushAfterSleep : List Event → Bool
  | [] => false
  | .sleep _ :: rest => rest.any isFlush || flushAfterSleep rest
  | _ :: rest => flushAfterSleep rest

/-- Value of one output column in `fake_data.py` (line 34), parametrised by
the configuration variables `amplitude`, `shift`, `period`,
`amplitude_noise`, `period_noise` and by the values the expression consumes
in evaluation order: the first clock reading `t1` (base sinusoid), the first
random draw `r`, the second clock reading `t2` (noise sinusoid), and the
second random draw `r'`.  Note the Python expression
`2 * math.pi * (time.time() - start) / random.random() * period_noise`
associates to the left: the division by `r'` happens before the
multiplication by `period_noise`. -/
noncomputable def columnValue (amp sh per ampN perN start t1 t2 r r' : ℝ) : ℝ :=
  amp * Real.sin (2 * Real.pi * (t1 - start) / per) + sh +
    r * ampN * Real.sin (2 * Real.pi * (t2 - start) / r' * perN)

namespace FakeData

/-- Configuration constant `amplitude = 10` of `fake_data.py`. -/
def amplitude : ℝ := 10

/-- Configuration constant `shift = 5` of `fake_data.py`. -/
def shift : ℝ := 5

/-- Configuration constant `period = 10` of `fake_data.py`. -/
def period : ℝ := 10

/-- Configuration constant `sleep_time = 0.5` of `fake_data.py`. -/
def sleep_time : ℚ := 1 / 2

/-- Configuration constant `amplitude_noise = 2` of `fake_data.py`. -/
def amplitude_noise : ℝ := 2

/-- Configuration constant `period_noise = 2` of `fake_data.py`. -/
def period_noise : ℝ := 2

/-- Parsed command-line arguments of `fake_data.py`. -/
structure Args where
  num_columns : Int
  csv : Bool

/-- Argparse defaults: `--num-columns` defaults to 1, `--csv` to off. -/
def defaultArgs : Args := ⟨1, false⟩

/-- Argument acceptance of `fake_data.py`: `--num-columns` is `type=int`
with no further validation and `--csv` is a plain flag, so every integer is
accepted and parsing always succeeds. -/
def parseArgs (n : Int) (csv : Bool) : Option Args := some ⟨n, csv⟩

/-- Separator selection of `fake_data.py`: three spaces, or a comma when the
`--csv` flag is set. -/
def separator (csv : Bool) : List Char := if csv then [','] else [' ', ' ', ' ']

/-- The column value of `fake_data.py` with its concrete configuration
constants substituted. -/
noncomputable def fakeColumnValue (start t1 t2 r r' : ℝ) : ℝ :=
  columnValue amplitude shift period amplitude_noise period_noise start t1 t2 r r'

/-- Fallible evaluation of one column value: Python float division raises
`ZeroDivisionError`, so the expression aborts when a denominator (`period`
for the base sinusoid, the fresh draw `r'` for the noise sinusoid) is
zero. -/
noncomputable def fakeColumnValueChecked (start t1 t2 r r' : ℝ) : Option ℝ :=
  if period = 0 then none
  else if r' = 0 then none
  else some (fakeColumnValue start t1 t2 r r')

/-- The unused value `y` computed at the top of each loop iteration of
`fake_data.py` (line 29); it consumes clock reading 0 of the tick. -/
noncomputable def tickY (start : ℝ) (clock : ℕ → ℝ) : ℝ :=
  amplitude * Real.sin (2 * Real.pi * (clock 0 - start) / period) + shift

/-- Column values produced by one tick of `fake_data.py` with `n` columns.
`clock j` is the value of the `j`-th `time.time()` call of the tick and
`rand j` the value of the `j`-th `random.random()` call.  Reading 0 of the
clock is consumed by the unused `y`; column `i` then consumes clock readings
`1 + 2*i` (base) and `2 + 2*i` (noise) and random draws `2*i` (noise
amplitude scalar `r`) and `2*i + 1` (noise period divisor `r'`), in that
evaluation order. -/
noncomputable def tickValues (start : ℝ) (clock rand : ℕ → ℝ) (n : ℕ) : List ℝ :=
  (List.range n).map (fun i =>
    fakeColumnValue start (clock (1 + 2 * i)) (clock (2 + 2 * i)) (rand (2 * i)) (rand (2 * i + 1)))

/-- The `data` list of one tick: each column value rendered to text.
`render` models Python's `str` on floats. -/
noncomputable def tickData (start : ℝ) (clock rand : ℕ → ℝ) (n : ℕ)
    (render : ℝ → List Char) : List (List Char) :=
  (tickValues start clock rand n).map render

/-- The output line of one tick: the rendered column values joined by the
separator (`separator.join(data)`). -/
noncomputable def tickLine (start : ℝ) (clock rand : ℕ → ℝ) (n : ℕ)
    (render : ℝ → List Char) (sep : List Char) : List Char :=
  joinSep sep (tickData start clock rand n render)

/-- The output line of one tick as determined by the parsed arguments
(`range(args.num_columns)` is empty for non-positive counts). -/
noncomputable def lineForArgs (args : Args) (start : ℝ) (clock rand : ℕ → ℝ)
    (render : ℝ → List Char) : List Char :=
  tickLine start clock rand args.num_columns.toNat render (separator args.csv)

/-- Effects of one tick of `fake_data.py`, in program order (lines 37-39):
print the line, flush stdout, sleep. -/
def tickEvents (line : List Char) : List Event :=
  [Event.write line, Event.flush, Event.sleep sleep_time]

end FakeData

namespace HighFreqData

/-- Configuration constant `HZ = 100` of `high_freq_data.py`. -/
def HZ : ℚ := 100

/-- Configuration constant `INTERVAL = 1 / HZ` of `high_freq_data.py`. -/
def INTERVAL : ℚ := 1 / HZ

/-- Configuration constant `amplitude = 10` of `high_freq_data.py`. -/
def amplitude : ℝ := 10

/-- Configuration constant `shift = 5` of `high_freq_data.py`. -/
def shift : ℝ := 5

/-- Configuration constant `period = 20` of `high_freq_data.py`. -/
def period : ℝ := 20

/-- The pure signal function `f` of `high_freq_data.py` (lines 12-13). -/
noncomputable def f (x : ℝ) : ℝ :=
  amplitude * Real.sin (2 * Real.pi * x / period) + shift

/-- One tick of `high_freq_data.py` (lines 18-21): a single clock reading
`t = time.time()`, elapsed time `x = t - start`, value `y = f x`, and the
emitted pair `(t, y)`. -/
noncomputable def tick (start : ℝ) (clock : ℕ → ℝ) : ℝ × ℝ :=
  let t := clock 0
  let x := t - start
  let y := f x
  (t, y)

/-- Effects of one tick of `high_freq_data.py`, in program order
(lines 21-23): print the line, sleep, flush stdout. -/
def tickEvents (line : List Char) : List Event :=
  [Event.write line, Event.sleep INTERVAL, Event.flush]

end HighFreqData

/-- Modelled from the spec: per-column value formula
`amplitude * sin(2π·x/period) + shift + r * amplitude_noise * sin(2π·x / (r' * period_noise))`
with a single elapsed time `x` and the noise sinusoid's argument dividing
`x` by the product `r' * period_noise`.  Stated for comparison with the
source-derived `fakeColumnValue`. -/
noncomputable def specColumnValue (x r r' : ℝ) : ℝ :=
  FakeData.amplitude * Real.sin (2 * Real.pi * x / FakeData.period) + FakeData.shift +
    r * FakeData.amplitude_noise *
      Real.sin (2 * Real.pi * x / (r' * FakeData.period_noise))

/-- Concrete clock-reading sequence for a two-column tick in which the clock
advances mid-tick: readings 0, 1, 2 return time 0 and later readings return
time 5/2. -/
noncomputable def clockC3 : ℕ → ℝ := fun j => if j ≤ 2 then 0 else 5 / 2

/-- Concrete random-draw sequence: the noise-amplitude draws (even indices)
are 0 and the noise-period draws (odd indices) are 1/2. -/
noncomputable def randC3 : ℕ → ℝ := fun j => if j % 2 = 0 then 0 else 1 / 2

/-- Claim C1 (counterexample): the source value differs from the spec's
formula `amplitude * sin(2π·x/period) + shift + r * amplitude_noise *
sin(2π·x / (r' * period_noise))` at x = 1/4, r = 1/2, r' = 1/2: the code's
noise argument is `(2π·x / r') * period_noise = 2π`, with sine 0, while the
spec's is `2π·x / (r' * period_noise) = π/2`, with sine 1. -/
theorem C1_counterexample :
    FakeData.fakeColumnValue 0 (1/4) (1/4) (1/2) (1/2) ≠ specColumnValue (1/4) (1/2) (1/2) := by
  unfold FakeData.fakeColumnValue columnValue specColumnValue
  unfold FakeData.amplitude FakeData.shift FakeData.period FakeData.amplitude_noise
    FakeData.period_noise
  rw [sub_zero]
  have h1 : 2 * Real.pi * ((1:ℝ)/4) / (1/2) * 2 = 2 * Real.pi := by ring
  have h2 : 2 * Real.pi * ((1:ℝ)/4) / ((1/2) * 2) = Real.pi / 2 := by ring
  rw [h1, h2, Real.sin_two_pi, Real.sin_pi_div_two]
  intro h
  linarith

/-- Claim C1 (amended): for every tick and every column `i < n`, the emitted
value equals `amplitude * sin(2π·x_base/period) + shift + r *
amplitude_noise * sin((2π·x_noise / r') * period_noise)`, where `x_base` and
`x_noise` are the elapsed times of the column's two successive clock
readings and `r`, `r'` are the column's two independent fresh draws; the
noise sinusoid's argument divides by `r'` and then multiplies by
`period_noise` (it does not divide by the product `r' * period_noise`). -/
theorem C1_amended (start : ℝ) (clock rand : ℕ → ℝ) (n i : ℕ) (h : i < n) :
    (FakeData.tickValues start clock rand n)[i]? =
      some (FakeData.amplitude * Real.sin (2 * Real.pi * (clock (1 + 2 * i) - start) / FakeData.period)
        + FakeData.shift
        + rand (2 * i) * FakeData.amplitude_noise *
            Real.sin (2 * Real.pi * (clock (2 + 2 * i) - start) / rand (2 * i + 1) * FakeData.period_noise)) := by
  unfold FakeData.tickValues FakeData.fakeColumnValue columnValue
  rw [List.getElem?_map, List.getElem?_range h]
  rfl

/-- Witness for C1: with all clock readings and draws 0 and one column, the
single emitted value is `shift`. -/
theorem C1_witness :
    (FakeData.tickValues 0 (fun _ => 0) (fun _ => 0) 1)[0]? = some FakeData.shift := by
  have h := C1_amended 0 (fun _ => 0) (fun _ => 0) 1 0 (by norm_num)
  simpa [Real.sin_zero] using h

/-- Claim C2 (counterexample): in `high_freq_data.py` the tick's flush
happens after its sleep, refuting that the flush never happens after the
sleep. -/
theorem C2_counterexample : flushAfterSleep (HighFreqData.tickEvents []) = true := rfl

/-- Claim C2 (amended): in `fake_data.py` each iteration writes the line,
then flushes, then sleeps, and no flush follows a sleep; in
`high_freq_data.py` each iteration writes, then sleeps, then flushes, so
there the flush does follow the sleep. -/
theorem C2_amended (line : List Char) :
    (FakeData.tickEvents line)[0]? = some (Event.write line) ∧
    (FakeData.tickEvents line)[1]? = some Event.flush ∧
    (FakeData.tickEvents line)[2]? = some (Event.sleep FakeData.sleep_time) ∧
    flushAfterSleep (FakeData.tickEvents line) = false ∧
    (HighFreqData.tickEvents line)[0]? = some (Event.write line) ∧
    (HighFreqData.tickEvents line)[1]? = some (Event.sleep HighFreqData.INTERVAL) ∧
    (HighFreqData.tickEvents line)[2]? = some Event.flush ∧
    flushAfterSleep (HighFreqData.tickEvents line) = true :=
  ⟨rfl, rfl, rfl, rfl, rfl, rfl, rfl, rfl⟩

/-- Claim C3 (counterexample): with the clock advancing from 0 to 5/2 in the
middle of a two-column tick of `fake_data.py` and the noise-amplitude draws
zeroed, the tick emits [5, 15]; no single elapsed time x can reproduce that
tick, since with the same draws both columns would then be equal. -/
theorem C3_counterexample :
    ¬ ∃ x : ℝ, FakeData.tickValues 0 clockC3 randC3 2 =
      [FakeData.fakeColumnValue 0 x x (randC3 0) (randC3 1),
       FakeData.fakeColumnValue 0 x x (randC3 2) (randC3 3)] := by
  rintro ⟨x, hx⟩
  have hv0 : FakeData.fakeColumnValue 0 0 0 0 (1/2) = 5 := by
    unfold FakeData.fakeColumnValue columnValue FakeData.amplitude FakeData.shift FakeData.period
      FakeData.amplitude_noise FakeData.period_noise
    norm_num
  have hv1 : FakeData.fakeColumnValue 0 (5/2) (5/2) 0 (1/2) = 15 := by
    unfold FakeData.fakeColumnValue columnValue FakeData.amplitude FakeData.shift FakeData.period
      FakeData.amplitude_noise FakeData.period_noise
    have harg : 2 * Real.pi * ((5:ℝ)/2 - 0) / 10 = Real.pi / 2 := by ring
    rw [harg, Real.sin_pi_div_two]
    norm_num
  have hlist : FakeData.tickValues 0 clockC3 randC3 2 = [5, 15] := by
    unfold FakeData.tickValues
    rw [show List.range 2 = [0, 1] from rfl]
    simp only [List.map_cons, List.map_nil]
    norm_num [clockC3, randC3, hv0, hv1]
  rw [hlist] at hx
  have hr0 : randC3 0 = 0 := by norm_num [randC3]
  have hr1 : randC3 1 = 1/2 := by norm_num [randC3]
  have hr2 : randC3 2 = 0 := by norm_num [randC3]
  have hr3 : randC3 3 = 1/2 := by norm_num [randC3]
  rw [hr0, hr1, hr2, hr3] at hx
  rw [List.cons_eq_cons] at hx
  obtain ⟨h5, h15⟩ := hx
  rw [List.cons_eq_cons] at h15
  have h15' := h15.1
  linarith [h5, h15']

/-- Claim C3 (amended): in `fake_data.py` each column takes its own fresh
clock readings; when the clock does not advance during the tick (all
readings equal t), every column value is a function of that same single
elapsed time t. -/
theorem C3_amended (start t : ℝ) (clock rand : ℕ → ℝ) (n : ℕ) (h : ∀ j, clock j = t) :
    FakeData.tickValues start clock rand n =
      (List.range n).map (fun i =>
        FakeData.fakeColumnValue start t t (rand (2 * i)) (rand (2 * i + 1))) := by
  simp only [FakeData.tickValues, h]

/-- Witness for C3: a constant clock and zero draws with one column. -/
theorem C3_witness :
    FakeData.tickValues 0 (fun _ => (1:ℝ)) (fun _ => (0:ℝ)) 1 =
      (List.range 1).map (fun _ => FakeData.fakeColumnValue 0 1 1 0 0) :=
  C3_amended 0 1 (fun _ => 1) (fun _ => 0) 1 (fun _ => rfl)

/-- Claim C4: for all t ≥ 0, with the noise-amplitude draw zero the emitted
value at elapsed time t is `amplitude * sin(2π·t/period) + shift`; in
particular with amplitude = 10, shift = 5, period = 10 (the configured
constants) and t = 5/2 the value is 15. -/
theorem C4_theorem (t u r' : ℝ) (h : 0 ≤ t) :
    FakeData.fakeColumnValue 0 t u 0 r' =
      FakeData.amplitude * Real.sin (2 * Real.pi * t / FakeData.period) + FakeData.shift ∧
    FakeData.fakeColumnValue 0 (5/2) (5/2) 0 1 = 15 := by
  constructor
  · simp [FakeData.fakeColumnValue, columnValue]
  · unfold FakeData.fakeColumnValue columnValue FakeData.amplitude FakeData.shift FakeData.period
      FakeData.amplitude_noise FakeData.period_noise
    have harg : 2 * Real.pi * ((5:ℝ)/2 - 0) / 10 = Real.pi / 2 := by ring
    rw [harg, Real.sin_pi_div_two]
    norm_num

/-- Witness for C4: evaluated at t = 3 with r' = 1. -/
theorem C4_witness :
    FakeData.fakeColumnValue 0 3 3 0 1 =
      FakeData.amplitude * Real.sin (2 * Real.pi * 3 / FakeData.period) + FakeData.shift ∧
    FakeData.fakeColumnValue 0 (5/2) (5/2) 0 1 = 15 :=
  C4_theorem 3 3 1 (by norm_num)

/-- Claim C5: for every configured `num_columns = n ≥ 1`, the emitted line
splits on the configured separator into exactly n fields, provided each
rendered number avoids the separator's characters (as Python float
rendering does); for n = 1 the line is the single rendered number with no
separator. -/
theorem C5_theorem (start : ℝ) (clock rand : ℕ → ℝ) (n : ℕ) (render : ℝ → List Char) (b : Bool)
    (hn : 1 ≤ n) (hrender : ∀ v : ℝ, ∀ c ∈ FakeData.separator b, c ∉ render v) :
    (splitOnL (FakeData.separator b)
      (FakeData.tickLine start clock rand n render (FakeData.separator b))).length = n ∧
    (n = 1 → FakeData.tickLine start clock rand n render (FakeData.separator b) =
      render (FakeData.fakeColumnValue start (clock 1) (clock 2) (rand 0) (rand 1))) := by
  obtain ⟨d, sep', hsep⟩ : ∃ d sep', FakeData.separator b = d :: sep' := by
    cases b
    · exact ⟨' ', [' ', ' '], rfl⟩
    · exact ⟨',', [], rfl⟩
  have hd : d ∈ FakeData.separator b := by rw [hsep]; exact List.mem_cons_self _ _
  have hlen : (FakeData.tickData start clock rand n render).length = n := by
    simp [FakeData.tickData, FakeData.tickValues]
  constructor
  · have hne : FakeData.tickData start clock rand n render ≠ [] := by
      intro hcontra
      rw [hcontra] at hlen
      simp at hlen
      omega
    have hfree : ∀ p ∈ FakeData.tickData start clock rand n render, d ∉ p := by
      intro p hp
      obtain ⟨v, _, rfl⟩ := List.mem_map.mp hp
      exact hrender v d hd
    have hsplit := splitOnL_joinSep d sep' (FakeData.tickData start clock rand n render) hne hfree
    rw [FakeData.tickLine, hsep, hsplit]
    exact hlen
  · intro hn1
    subst hn1
    rw [FakeData.tickLine, FakeData.tickData, FakeData.tickValues,
      show List.range 1 = [0] from rfl]
    simp only [List.map_cons, List.map_nil]
    rw [show joinSep (FakeData.separator b)
      [render (FakeData.fakeColumnValue start (clock (1 + 2 * 0)) (clock (2 + 2 * 0))
        (rand (2 * 0)) (rand (2 * 0 + 1)))] =
      render (FakeData.fakeColumnValue start (clock (1 + 2 * 0)) (clock (2 + 2 * 0))
        (rand (2 * 0)) (rand (2 * 0 + 1))) from rfl]

/-- Witness for C5: two columns in CSV mode with a constant rendering. -/
theorem C5_witness :
    (splitOnL (FakeData.separator true)
      (FakeData.tickLine 0 (fun _ => 0) (fun _ => 0) 2 (fun _ => ['1'])
        (FakeData.separator true))).length = 2 :=
  (C5_theorem 0 (fun _ => 0) (fun _ => 0) 2 (fun _ => ['1']) true (by norm_num)
    (by
      intro v c hc
      simp [FakeData.separator] at hc
      subst hc
      show ',' ∉ ['1']
      decide)).1

/-- Claim C6: the join separator is a comma exactly when the csv flag is
set and three spaces otherwise; the csv flag defaults to off and
num-columns defaults to 1. -/
theorem C6_theorem :
    (∀ b, FakeData.separator b = [','] ↔ b = true) ∧
    FakeData.separator false = [' ', ' ', ' '] ∧
    FakeData.defaultArgs.csv = false ∧
    FakeData.defaultArgs.num_columns = 1 := by
  refine ⟨fun b => ?_, rfl, rfl, rfl⟩
  cases b <;> decide

/-- Claim C7: with num_columns = 0 the program either rejects the argument
at parsing time or emits an empty line on every tick; the code takes the
second branch (argparse accepts 0 and the joined line is empty). -/
theorem C7_theorem (b : Bool) (start : ℝ) (clock rand : ℕ → ℝ) (render : ℝ → List Char) :
    FakeData.parseArgs 0 b = none ∨
    FakeData.lineForArgs ⟨0, b⟩ start clock rand render = [] := by
  right
  simp [FakeData.lineForArgs, FakeData.tickLine, FakeData.tickData, FakeData.tickValues, joinSep]

/-- Claim C8: with the noise amplitude forced to 0, the column value is a
pure deterministic function of the base elapsed-time reading t: it is
independent of the noise-time reading and of both random draws, so two
evaluations at the same t return the same value. -/
theorem C8_theorem (amp sh per perN start t u u' r r' q q' : ℝ) :
    columnValue amp sh per 0 perN start t u r r' =
      columnValue amp sh per 0 perN start t u' q q' := by
  simp [columnValue]

/-- Claim C9: the noise computation divides by the fresh draw r', so the
draw 0 (a possible value of a uniform draw in [0,1)) aborts the evaluation
even though the configured period is nonzero, while any nonzero draw
evaluates normally. -/
theorem C9_theorem :
    FakeData.fakeColumnValueChecked 0 (1/2) (1/2) (1/2) 0 = none ∧
    FakeData.fakeColumnValueChecked 0 (1/2) (1/2) (1/2) (1/2) =
      some (FakeData.fakeColumnValue 0 (1/2) (1/2) (1/2) (1/2)) ∧
    (FakeData.period : ℝ) ≠ 0 ∧ (0:ℝ) ∈ Set.Ico (0:ℝ) 1 := by
  refine ⟨?_, ?_, ?_, ?_⟩
  · norm_num [FakeData.fakeColumnValueChecked, FakeData.period]
  · norm_num [FakeData.fakeColumnValueChecked, FakeData.period]
  · norm_num [FakeData.period]
  · simp [Set.mem_Ico]

/-- Claim C10: in `high_freq_data.py` the first emitted field is the
absolute wall-clock reading t (not the elapsed time, whenever start ≠ 0),
the second is f(t - start), and the whole line is a function of the tick's
single clock reading. -/
theorem C10_theorem (start : ℝ) (clock clock' : ℕ → ℝ) (h : clock 0 = clock' 0)
    (h0 : start ≠ 0) :
    (HighFreqData.tick start clock).1 = clock 0 ∧
    (HighFreqData.tick start clock).2 = HighFreqData.f (clock 0 - start) ∧
    HighFreqData.tick start clock = HighFreqData.tick start clock' ∧
    (HighFreqData.tick start clock).1 ≠ clock 0 - start := by
  refine ⟨rfl, rfl, by simp [HighFreqData.tick, h], ?_⟩
  show clock 0 ≠ clock 0 - start
  intro hEq
  apply h0
  linarith

/-- Witness for C10: start = 1 and a constant clock returning 2. -/
theorem C10_witness :
    (HighFreqData.tick 1 (fun _ => 2)).1 = 2 ∧
    (HighFreqData.tick 1 (fun _ => 2)).2 = HighFreqData.f (2 - 1) ∧
    HighFreqData.tick 1 (fun _ => 2) = HighFreqData.tick 1 (fun _ => 2) ∧
    (HighFreqData.tick 1 (fun _ => 2)).1 ≠ 2 - 1 :=
  C10_theorem 1 (fun _ => 2) (fun _ => 2) rfl (by norm_num)
